import Mathlib

/-!
Shallow embedding of the DocuNation C documentation extractor
(src/docunation.c) and verification of its specification claims.

Source lines are modelled as lists of characters without their trailing
newline; wherever the C code inspects the raw fgets buffer (which includes
the newline) the model appends an explicit newline character.  Buffer
capacities (MAX_NAME 256, MAX_DOC 8192, MAX_SIG 8192, MAX_NODES 2048) are
modelled by explicit truncation, matching safe_strcpy / safe_append.
-/

set_option maxRecDepth 10000

/-- MAX_NODES from docunation.c. -/
def MAX_NODES : Nat := 2048

/-- C isspace on the characters that can occur in text input
(space, tab, newline, carriage return, vertical tab, form feed). -/
def cIsSpace (c : Char) : Bool :=
  c == ' ' || c == '\t' || c == '\n' || c == '\r' || c == '\x0b' || c == '\x0c'

/-- is_ident_char from docunation.c: alphanumeric or underscore. -/
def is_ident_char (c : Char) : Bool :=
  c.isAlpha || c.isDigit || c == '_'

/-- ltrim: drop leading whitespace (pointer advance, no buffer change). -/
def lstrip (s : List Char) : List Char := s.dropWhile cIsSpace

/-- rtrim applied to a string whose first character is not whitespace
(the only way the C code reaches rtrim, via trim): drop trailing whitespace. -/
def rstrip (s : List Char) : List Char := (s.reverse.dropWhile cIsSpace).reverse

/-- trim from docunation.c: the fully trimmed string (the returned pointer). -/
def trimC (s : List Char) : List Char := rstrip (lstrip s)

/-- The effect of `trim(buf)` on the underlying buffer: rtrim truncates the
trailing whitespace in place, while the leading whitespace stays in the
buffer (ltrim only moves the returned pointer). -/
def trimInPlace (s : List Char) : List Char :=
  s.takeWhile cIsSpace ++ rstrip (s.dropWhile cIsSpace)

/-- strchr as a Bool: does the string contain the character. -/
def containsChar : List Char → Char → Bool
  | [], _ => false
  | a :: t, c => a == c || containsChar t c

/-- starts_with from docunation.c: strncmp(str, prefix, strlen(prefix)) == 0. -/
def startsWithL : List Char → List Char → Bool
  | _, [] => true
  | [], _ :: _ => false
  | c :: cs, p :: ps => c == p && startsWithL cs ps

/-- strstr as a Bool: does hay contain pat as a contiguous substring. -/
def containsSub : List Char → List Char → Bool
  | [], pat => startsWithL [] pat
  | s@(_ :: t), pat => startsWithL s pat || containsSub t pat

/-- strstr returning the suffix that starts at the first occurrence of pat. -/
def findSub : List Char → List Char → Option (List Char)
  | [], pat => if startsWithL [] pat then some [] else none
  | s@(_ :: t), pat => if startsWithL s pat then some s else findSub t pat

/-- The prefix of s strictly before the first occurrence of pat
(the whole of s when pat does not occur): the effect of writing a NUL
terminator at the position strstr returns. -/
def takeUntilSub : List Char → List Char → List Char
  | [], _ => []
  | s@(c :: t), pat => if startsWithL s pat then [] else c :: takeUntilSub t pat

/-- safe_append(dest, src, 8192): append src, keeping dest at most 8191
characters (used for MAX_SIG- and MAX_DOC-sized buffers, both 8192). -/
def capApp (a b : List Char) : List Char := a ++ b.take (8191 - a.length)

/-- The line-start handling inside clean_comment: skip spaces and tabs,
then a leading star that is not part of a closing delimiter, plus one
following space. -/
def startSkip (s : List Char) : List Char :=
  let s1 := s.dropWhile (fun c => c == ' ' || c == '\t')
  match s1 with
  | '*' :: t =>
      if t.headD ' ' == '/' then s1
      else match t with
           | ' ' :: t2 => t2
           | _ => t
  | _ => s1

/-- The main loop of clean_comment, with explicit fuel.  Every iteration
either consumes at least one character or turns the line-start flag off
(and the flag is only turned on by consuming a newline), so fuel
2*length+2 always suffices. -/
def cleanLoop : Nat → List Char → Bool → List Char
  | 0, _, _ => []
  | _ + 1, [], _ => []
  | fuel + 1, s@(c :: rest), atStart =>
    if startsWithL s ['*', '/'] then cleanLoop fuel (s.drop 2) atStart
    else if c == '\n' then '\n' :: cleanLoop fuel rest true
    else if atStart then cleanLoop fuel (startSkip s) false
    else c :: cleanLoop fuel rest false

/-- The opening-delimiter skip at the top of clean_comment. -/
def skipOpen (s : List Char) : List Char :=
  if startsWithL s (("/**").toList) then s.drop 3
  else if startsWithL s (("/*").toList) then s.drop 2
  else if startsWithL s (("//").toList) then s.drop 2
  else s

/-- clean_comment from docunation.c: strip delimiters and line-leading
stars, cap at MAX_DOC-1 output characters, and apply the final in-place
trim (which removes trailing whitespace from the buffer but leaves any
leading whitespace in place). -/
def cleanComment (raw : List Char) : List Char :=
  trimInPlace ((cleanLoop (2 * raw.length + 2) (skipOpen raw) true).take 8191)

/-- NodeType from docunation.c (NODE_MACRO is called NODE_MACRO_DEF here). -/
inductive NodeType where
  | NODE_FUNCTION : NodeType
  | NODE_STRUCT : NodeType
  | NODE_UNION : NodeType
  | NODE_ENUM : NodeType
  | NODE_TYPEDEF : NodeType
  | NODE_MACRO_DEF : NodeType
  | NODE_VARIABLE : NodeType
  | NODE_INCLUDE : NodeType
deriving DecidableEq, Repr

open NodeType

/-- DocNode from docunation.c. -/
structure DocNode where
  name : List Char
  type : NodeType
  line : Nat
  docstring : List Char
  signature : List Char
  return_type : List Char
  is_static : Bool
  is_inline : Bool
  is_extern : Bool
deriving DecidableEq, Repr

/-- The scanner state: the remaining input lines, the Parser fields
(line buffer as refreshed by next_line, line counter, pending comment and
its closing line) and the DOCUNATION fields filled by parse_file
(file-level docstring and the counted node array, as a list). -/
structure ScanState where
  input : List (List Char)
  line_num : Nat
  line : List Char
  pending_comment : List Char
  pending_comment_line : Nat
  doc_docstring : List Char
  nodes : List DocNode
deriving DecidableEq, Repr

/-- ADD_NODE from docunation.c: the count is incremented (the node becomes
part of the document) only while node_count < MAX_NODES - 1; at the cap the
node written beyond the counted region is discarded and the collected
nodes stay as they are. -/
def addNode (s : ScanState) (n : DocNode) : ScanState :=
  if MAX_NODES - 1 ≤ s.nodes.length then s
  else { s with nodes := s.nodes ++ [n] }

/-- The multi-line reconstruction loop shared by parse_function and
parse_typedef: while the stop predicate fails on the accumulated signature,
read a raw line, trim it and append it behind a space (two safe_appends). -/
def contLoop (stop : List Char → Bool) : List (List Char) → Nat → List Char →
    List (List Char) × Nat × List Char
  | [], ln, sig => ([], ln, sig)
  | r :: rest, ln, sig =>
    if stop sig then (r :: rest, ln, sig)
    else contLoop stop rest (ln + 1) (capApp (capApp sig [' ']) (trimC r))

/-- The backslash-continuation test of parse_macro: the signature ends in a
backslash, or its second-to-last character is a backslash. -/
def macroCont (sig : List Char) : Bool :=
  sig.getLast? == some '\\' || sig.dropLast.getLast? == some '\\'

/-- The in-place replacement of a trailing backslash by a space. -/
def macroRepl (sig : List Char) : List Char :=
  if sig.getLast? == some '\\' then sig.dropLast ++ [' '] else sig

/-- The continuation loop of parse_macro: while macroCont holds, replace a
trailing backslash by a space, read the next line, trim it, and append it
when the combined length stays below MAX_SIG - 1. -/
def macroLoop : List (List Char) → Nat → List Char →
    List (List Char) × Nat × List Char
  | [], ln, sig =>
    if macroCont sig then ([], ln, macroRepl sig) else ([], ln, sig)
  | r :: rest, ln, sig =>
    if macroCont sig then
      let sig1 := macroRepl sig
      let t := trimC r
      macroLoop rest (ln + 1)
        (if sig1.length + t.length < 8191 then capApp sig1 t else sig1)
    else (r :: rest, ln, sig)

/-- The continuation loop of parse_variable: per raw line, append a single
space when the length test passes (the C code never appends the line text
itself), and stop after a line containing a closing brace or a semicolon.
The last component is the content of the parser's line buffer, which each
fgets overwrites with the raw line read (newline included): the name walk
after the loop reads this buffer, not the saved dispatch line. -/
def varLoop : List (List Char) → Nat → List Char → List Char →
    List (List Char) × Nat × List Char × List Char
  | [], ln, sig, buf => ([], ln, sig, buf)
  | r :: rest, ln, sig, _buf =>
    let raw := r ++ ['\n']
    let sig1 := if sig.length + raw.length < 8182 then capApp sig [' '] else sig
    if containsChar raw '\x7d' || containsChar raw ';' then
      (rest, ln + 1, sig1, raw)
    else varLoop rest (ln + 1) sig1 raw

/-- The continuation loop of parse_block_comment: append each raw line
(with its newline) while the combined length stays below MAX_DOC - 1, and
stop after a line containing the closing delimiter. -/
def blockLoop : List (List Char) → Nat → List Char →
    List (List Char) × Nat × List Char
  | [], ln, buf => ([], ln, buf)
  | r :: rest, ln, buf =>
    let raw := r ++ ['\n']
    let buf1 := if buf.length + raw.length < 8191 then capApp buf raw else buf
    if containsSub raw (("*/").toList) then (rest, ln + 1, buf1)
    else blockLoop rest (ln + 1) buf1

/-- The backwards name walk shared by parse_function (on the text before
the first parenthesis) and parse_typedef (on the whole declaration): skip
trailing whitespace from the right, then take the maximal identifier run
ending at that position; returns the run and the text before it.  When the
input is entirely whitespace the C pointer walk stops at the first
character and yields it as a one-character name. -/
def lastIdentSplit (pre : List Char) : List Char × List Char :=
  if pre.isEmpty then ([], [])
  else
    let r := pre.reverse
    match r.dropWhile cIsSpace with
    | [] => ([pre.headD ' '], [])
    | c :: rest =>
        ((c :: rest.takeWhile is_ident_char).reverse,
         (rest.dropWhile is_ident_char).reverse)

/-- Name extraction of parse_aggregate: the identifier run after the
keyword, found by strstr on the line buffer. -/
def aggregateName (buf kw : List Char) : List Char :=
  match findSub buf kw with
  | none => []
  | some suf =>
    let s1 := (suf.drop kw.length).dropWhile cIsSpace
    let nm := s1.takeWhile is_ident_char
    if 0 < nm.length ∧ nm.length < 256 then nm else []

/-- Name extraction of parse_macro: skip "#define" and whitespace, then the
identifier run (a parenthesis of a function-like macro stops the run). -/
def macroNameOf (sig : List Char) : List Char :=
  let s1 := (sig.drop 7).dropWhile cIsSpace
  let nm := s1.takeWhile is_ident_char
  if 0 < nm.length ∧ nm.length < 256 then nm else []

/-- Name extraction of parse_include: the text between angle brackets, or
between the first pair of double quotes when no angle bracket opens. -/
def includeName (buf : List Char) : List Char :=
  if containsChar buf '<' then
    let afterLt := (buf.dropWhile (fun c => !(c == '<'))).drop 1
    if containsChar afterLt '>' then
      let nm := afterLt.takeWhile (fun c => !(c == '>'))
      if 0 < nm.length ∧ nm.length < 256 then nm else []
    else []
  else if containsChar buf '"' then
    let afterQ := (buf.dropWhile (fun c => !(c == '"'))).drop 1
    if containsChar afterQ '"' then
      let nm := afterQ.takeWhile (fun c => !(c == '"'))
      if 0 < nm.length ∧ nm.length < 256 then nm else []
    else []
  else []

/-- The scanning loop of parse_variable's name extraction: walk over
identifier characters, spaces and stars; at a space followed by an
identifier character, take that identifier run as a candidate and accept it
when the next non-space character is a bracket, an equals sign or a
semicolon; any other character stops the walk with no name. -/
def varNameScan : List Char → List Char
  | [] => []
  | [_] => []
  | c :: r :: rest2 =>
    if is_ident_char c || c == ' ' || c == '*' then
      if c == ' ' && is_ident_char r then
        let nameRun := (r :: rest2).takeWhile is_ident_char
        let after := ((r :: rest2).dropWhile is_ident_char).dropWhile cIsSpace
        if (match after.headD ' ' with
            | a => a == '[' || a == '=' || a == ';') &&
           !after.isEmpty then
          if nameRun.length < 256 then nameRun else []
        else varNameScan rest2
      else varNameScan (r :: rest2)
    else []

/-- Variable name extraction: skip a "static " prefix, whitespace, a
"const " prefix and whitespace, then run the candidate scan. -/
def varNameFrom (line : List Char) : List Char :=
  let s1 := if startsWithL line (("static ").toList) then line.drop 7 else line
  let s2 := s1.dropWhile cIsSpace
  let s3 := if startsWithL s2 (("const ").toList) then s2.drop 6 else s2
  let s4 := s3.dropWhile cIsSpace
  varNameScan s4

/-- parse_function (core): builds the node and the updated parser state;
the wrapper applies ADD_NODE.  The doc comment attaches when the pending
comment closed on the line before the function or on the function's own
line (the integer comparisons pending == line - 1 and pending == line are
written as pending + 1 = line and pending = line over Nat). -/
def parse_function_core (s : ScanState) (is_st is_in is_ex : Bool) :
    ScanState × DocNode :=
  let r := contLoop (fun sig => containsChar sig '\x7b' || containsChar sig ';')
             s.input s.line_num (s.line.take 8191)
  let sig := (r.2.2.takeWhile (fun c => !(c == '\x7b'))).takeWhile
               (fun c => !(c == ';'))
  let pre := sig.takeWhile (fun c => !(c == '('))
  let nr := if containsChar sig '(' then lastIdentSplit pre else ([], [])
  let name := if nr.1.length < 256 then nr.1 else []
  let attach := s.pending_comment_line + 1 = s.line_num ∨
                s.pending_comment_line = s.line_num
  ({ s with
      input := r.1
      line_num := r.2.1
      pending_comment := if attach then [] else s.pending_comment },
   { name := name
     type := NODE_FUNCTION
     line := s.line_num
     docstring := if attach then s.pending_comment.take 8191 else []
     signature := (trimC sig).take 8191
     return_type := (trimC nr.2).take 255
     is_static := is_st
     is_inline := is_in
     is_extern := is_ex })

/-- parse_function from docunation.c (the unused start argument is
omitted). -/
def parse_function (s : ScanState) (is_st is_in is_ex : Bool) : ScanState :=
  addNode (parse_function_core s is_st is_in is_ex).1
          (parse_function_core s is_st is_in is_ex).2

/-- The keyword string of an aggregate node type. -/
def aggKeyword : NodeType → List Char
  | NODE_UNION => ("union").toList
  | NODE_ENUM => ("enum").toList
  | _ => ("struct").toList

/-- The synthesized placeholder name of an anonymous aggregate. -/
def anonName : NodeType → List Char
  | NODE_UNION => ("(anonymous union)").toList
  | NODE_ENUM => ("(anonymous enum)").toList
  | _ => ("(anonymous struct)").toList

/-- parse_aggregate (core): single-line; signature is the whole trimmed
line (no body stripping in the C code); doc attaches only at distance one. -/
def parse_aggregate_core (s : ScanState) (ty : NodeType) : ScanState × DocNode :=
  let nm := aggregateName s.line (aggKeyword ty)
  let attach := s.pending_comment_line + 1 = s.line_num
  ({ s with pending_comment := if attach then [] else s.pending_comment },
   { name := if nm.isEmpty then anonName ty else nm
     type := ty
     line := s.line_num
     docstring := if attach then s.pending_comment.take 8191 else []
     signature := (trimC s.line).take 8191
     return_type := []
     is_static := false
     is_inline := false
     is_extern := false })

/-- parse_aggregate from docunation.c. -/
def parse_aggregate (s : ScanState) (ty : NodeType) : ScanState :=
  addNode (parse_aggregate_core s ty).1 (parse_aggregate_core s ty).2

/-- parse_typedef (core): accumulate lines until a semicolon appears,
truncate at the first semicolon, name from the last identifier run. -/
def parse_typedef_core (s : ScanState) : ScanState × DocNode :=
  let r := contLoop (fun sig => containsChar sig ';')
             s.input s.line_num (s.line.take 8191)
  let sig := r.2.2.takeWhile (fun c => !(c == ';'))
  let nm := (lastIdentSplit sig).1
  let attach := s.pending_comment_line + 1 = s.line_num
  ({ s with
      input := r.1
      line_num := r.2.1
      pending_comment := if attach then [] else s.pending_comment },
   { name := if 0 < nm.length ∧ nm.length < 256 then nm else []
     type := NODE_TYPEDEF
     line := s.line_num
     docstring := if attach then s.pending_comment.take 8191 else []
     signature := (trimC sig).take 8191
     return_type := []
     is_static := false
     is_inline := false
     is_extern := false })

/-- parse_typedef from docunation.c. -/
def parse_typedef (s : ScanState) : ScanState :=
  addNode (parse_typedef_core s).1 (parse_typedef_core s).2

/-- parse_macro (core), given the suffix of the line buffer starting at
"#define" (as found by strstr). -/
def parse_macro_core (s : ScanState) (suf : List Char) : ScanState × DocNode :=
  let r := macroLoop s.input s.line_num (suf.take 8191)
  let attach := s.pending_comment_line + 1 = s.line_num
  ({ s with
      input := r.1
      line_num := r.2.1
      pending_comment := if attach then [] else s.pending_comment },
   { name := macroNameOf r.2.2
     type := NODE_MACRO_DEF
     line := s.line_num
     docstring := if attach then s.pending_comment.take 8191 else []
     signature := (trimC r.2.2).take 8191
     return_type := []
     is_static := false
     is_inline := false
     is_extern := false })

/-- parse_macro from docunation.c: returns unchanged (no node) when the
line buffer has no "#define". -/
def parse_macro_def (s : ScanState) : ScanState :=
  match findSub s.line (("#define").toList) with
  | none => s
  | some suf => addNode (parse_macro_core s suf).1 (parse_macro_core s suf).2

/-- parse_include (core): never consumes extra lines and never touches the
pending comment. -/
def parse_include_core (s : ScanState) : ScanState × DocNode :=
  (s,
   { name := includeName s.line
     type := NODE_INCLUDE
     line := s.line_num
     docstring := []
     signature := (trimC s.line).take 8191
     return_type := []
     is_static := false
     is_inline := false
     is_extern := false })

/-- parse_include from docunation.c. -/
def parse_include (s : ScanState) : ScanState :=
  addNode (parse_include_core s).1 (parse_include_core s).2

/-- The signature truncation of parse_variable: cut at the first " = "
when one occurs, otherwise at the first opening brace. -/
def varTrunc (sig : List Char) : List Char :=
  if containsSub sig ((" = ").toList) then takeUntilSub sig ((" = ").toList)
  else if containsChar sig '\x7b' then sig.takeWhile (fun c => !(c == '\x7b'))
  else sig

/-- parse_variable (core): line is the blank-stripped dispatch line — in C
a pointer into the parser's line buffer at offset
s.line.length - line.length (the characters ltrim skipped).  The signature
is copied from that line before the continuation loop runs and is then
truncated at the first " = " or, failing that, the first opening brace.
The name walk, however, executes after the loop has overwritten the buffer
with the last raw line it read, so it dereferences the aliased pointer
into that buffer: the name comes from the final buffer content at the
ltrim offset (the saved dispatch line itself when no line was read). -/
def parse_variable_core (s : ScanState) (line : List Char) (is_st : Bool) :
    ScanState × DocNode :=
  let sig0 := line.take 8191
  let r := if containsChar sig0 '\x7b' && !containsChar sig0 '\x7d' then
             varLoop s.input s.line_num sig0 s.line
           else (s.input, s.line_num, sig0, s.line)
  let sigT := varTrunc r.2.2.1
  let attach := s.pending_comment_line + 1 = s.line_num
  ({ s with
      input := r.1
      line_num := r.2.1
      pending_comment := if attach then [] else s.pending_comment },
   { name := varNameFrom (r.2.2.2.drop (s.line.length - line.length))
     type := NODE_VARIABLE
     line := s.line_num
     docstring := if attach then s.pending_comment.take 8191 else []
     signature := (trimC sigT).take 8191
     return_type := []
     is_static := is_st
     is_inline := false
     is_extern := false })

/-- parse_variable from docunation.c. -/
def parse_variable (s : ScanState) (line : List Char) (is_st : Bool) : ScanState :=
  addNode (parse_variable_core s line is_st).1 (parse_variable_core s line is_st).2

/-- parse_block_comment from docunation.c: when the closing delimiter is on
the current line the buffer alone is cleaned; otherwise raw lines (with
newlines) are appended until the delimiter appears; the pending comment
line is the line on which the comment closed. -/
def parse_block_comment (s : ScanState) : ScanState :=
  if containsSub s.line (("*/").toList) then
    { s with pending_comment := cleanComment (capApp [] s.line)
             pending_comment_line := s.line_num }
  else
    let r := blockLoop s.input s.line_num (capApp [] s.line)
    { s with input := r.1
             line_num := r.2.1
             pending_comment := cleanComment r.2.2
             pending_comment_line := r.2.1 }

/-- The function-classification predicate of parse_file (lines 731-754). -/
def funcPred (line : List Char) (is_st is_in is_ex : Bool) : Bool :=
  containsChar line '(' &&
  !startsWithL line (("if").toList) &&
  !startsWithL line (("while").toList) &&
  !startsWithL line (("for").toList) &&
  !startsWithL line (("switch").toList) &&
  !startsWithL line (("return").toList) &&
  !containsSub line (("sizeof").toList) &&
  !containsSub line (("= ").toList) &&
  !containsSub line (("->").toList) &&
  !containsChar line '.' &&
  (is_st || is_in || is_ex ||
   startsWithL line (("void").toList) ||
   startsWithL line (("int").toList) ||
   startsWithL line (("char").toList) ||
   startsWithL line (("long").toList) ||
   startsWithL line (("short").toList) ||
   startsWithL line (("unsigned").toList) ||
   startsWithL line (("signed").toList) ||
   startsWithL line (("float").toList) ||
   startsWithL line (("double").toList) ||
   startsWithL line (("size_t").toList) ||
   startsWithL line (("const").toList) ||
   containsSub line (("* ").toList) ||
   containsSub line ['*', '\t'])

/-- The variable-classification predicate of parse_file (lines 761-767);
file scope requires a non-whitespace first buffer character, or a static or
extern qualifier. -/
def varPred (s : ScanState) (line : List Char) (is_st is_ex : Bool) : Bool :=
  ((match s.line.headD ' ' with | c => !cIsSpace c) && !s.line.isEmpty
     || is_st || is_ex) &&
  (is_st || startsWithL line (("const ").toList)) &&
  !containsChar line '(' &&
  !containsSub line (("->").toList) &&
  (containsChar line '=' || containsChar line '[')

/-- The block-comment branch of parse_file: after parse_block_comment, the
pending comment becomes the file-level docstring when no node has been
recorded and no file-level docstring exists yet. -/
def blockBranch (s : ScanState) : ScanState :=
  if (parse_block_comment s).nodes.length = 0 ∧
     (parse_block_comment s).doc_docstring.isEmpty then
    { parse_block_comment s with
        doc_docstring := (parse_block_comment s).pending_comment.take 8191 }
  else parse_block_comment s

/-- static / inline / extern detection on the dispatch line (strstr with a
trailing space, docunation.c lines 705-707). -/
def hasQual (line qual : List Char) : Bool := containsSub line qual

/-- One iteration of the parse_file while loop, after next_line succeeded:
the classification chain of docunation.c lines 673-776. -/
def dispatch (s : ScanState) : ScanState :=
  if startsWithL (lstrip s.line) (("/*").toList) then blockBranch s
  else if startsWithL (lstrip s.line) (("//").toList) then
    { s with pending_comment := cleanComment (lstrip s.line)
             pending_comment_line := s.line_num }
  else if (lstrip s.line).headD ' ' == '#' then
    if startsWithL (lstrip s.line) (("#include").toList) then parse_include s
    else if startsWithL (lstrip s.line) (("#define").toList) then parse_macro_def s
    else s
  else if containsSub (lstrip s.line) (("struct ").toList) &&
          !containsSub (lstrip s.line) (("typedef").toList) then
    parse_aggregate s NODE_STRUCT
  else if containsSub (lstrip s.line) (("union ").toList) &&
          !containsSub (lstrip s.line) (("typedef").toList) then
    parse_aggregate s NODE_UNION
  else if containsSub (lstrip s.line) (("enum ").toList) &&
          !containsSub (lstrip s.line) (("typedef").toList) then
    parse_aggregate s NODE_ENUM
  else if startsWithL (lstrip s.line) (("typedef").toList) then
    parse_typedef s
  else if funcPred (lstrip s.line) (hasQual (lstrip s.line) (("static ").toList))
           (hasQual (lstrip s.line) (("inline ").toList))
           (hasQual (lstrip s.line) (("extern ").toList)) then
    parse_function s (hasQual (lstrip s.line) (("static ").toList))
      (hasQual (lstrip s.line) (("inline ").toList))
      (hasQual (lstrip s.line) (("extern ").toList))
  else if varPred s (lstrip s.line) (hasQual (lstrip s.line) (("static ").toList))
            (hasQual (lstrip s.line) (("extern ").toList)) then
    parse_variable s (lstrip s.line) (hasQual (lstrip s.line) (("static ").toList))
  else if s.pending_comment_line + 1 < s.line_num then
    { s with pending_comment := [] }
  else s

/-- next_line from docunation.c: read lines (each read increments the line
counter), trim the buffer in place, and stop at the first line whose
trimmed content is non-empty. -/
def nextLineFrom (base : ScanState) : List (List Char) → Nat → Option ScanState
  | [], _ => none
  | l :: rest, ln =>
    if (trimC l).isEmpty then nextLineFrom base rest (ln + 1)
    else some { base with
                  input := rest
                  line_num := ln + 1
                  line := trimInPlace (l ++ ['\n']) }

/-- next_line, applied to the current state. -/
def nextLine (s : ScanState) : Option ScanState :=
  nextLineFrom s s.input s.line_num

/-- The parse_file while loop, with fuel.  Every iteration consumes at
least one input line, so fuel (number of lines + 1) never runs out before
the input does. -/
def scanLoop : Nat → ScanState → ScanState
  | 0, s => s
  | fuel + 1, s =>
    match nextLine s with
    | none => s
    | some s1 => scanLoop fuel (dispatch s1)

/-- The initial scanner state over a list of source lines. -/
def initState (lines : List (List Char)) : ScanState :=
  { input := lines
    line_num := 0
    line := []
    pending_comment := []
    pending_comment_line := 0
    doc_docstring := []
    nodes := [] }

/-- parse_file from docunation.c as a pure function of the file content. -/
def scanFile (lines : List (List Char)) : ScanState :=
  scanLoop (lines.length + 1) (initState lines)

/-- The DOCUNATION document structure (output of parse_document). -/
structure DOCUNATION where
  filepath : List Char
  module_name : List Char
  docstring : List Char
  nodes : List DocNode
  timestamp : List Char
deriving DecidableEq, Repr

/-- extract_module_name from docunation.c: the basename (after the last
slash, or the last backslash when there is no slash), capped at MAX_NAME-1,
with the extension after the last dot removed. -/
def extract_module_name (fp : List Char) : List Char :=
  let base :=
    if containsChar fp '/' then (fp.reverse.takeWhile (fun c => !(c == '/'))).reverse
    else if containsChar fp '\\' then
      (fp.reverse.takeWhile (fun c => !(c == '\\'))).reverse
    else fp
  let nm := base.take 255
  if containsChar nm '.' then
    ((nm.reverse.dropWhile (fun c => !(c == '.'))).drop 1).reverse
  else nm

/-- parse_document from docunation.c as a pure function of the file name,
the file content and the wall-clock timestamp string supplied by the
environment (the only input that differs between two runs on the same
file). -/
def parse_document (filename : List Char) (content : List (List Char))
    (now : List Char) : DOCUNATION :=
  let st := scanFile content
  { filepath := filename.take 4095
    module_name := extract_module_name filename
    docstring := st.doc_docstring
    nodes := st.nodes
    timestamp := now.take 63 }

/-! ## List and string lemmas -/

lemma takeWhile_mem {p : Char → Bool} : ∀ {l : List Char} {a : Char},
    a ∈ l.takeWhile p → a ∈ l := by
  intro l
  induction l with
  | nil => intro a h; simp at h
  | cons c t ih =>
    intro a h
    rw [List.takeWhile_cons] at h
    cases hpc : p c with
    | true =>
      simp only [hpc, if_true] at h
      rcases List.mem_cons.mp h with h1 | h2
      · exact h1 ▸ List.mem_cons_self c t
      · exact List.mem_cons_of_mem c (ih h2)
    | false => simp [hpc] at h

lemma takeWhile_pred {p : Char → Bool} : ∀ {l : List Char} {a : Char},
    a ∈ l.takeWhile p → p a = true := by
  intro l
  induction l with
  | nil => intro a h; simp at h
  | cons c t ih =>
    intro a h
    rw [List.takeWhile_cons] at h
    cases hpc : p c with
    | true =>
      simp only [hpc, if_true] at h
      rcases List.mem_cons.mp h with h1 | h2
      · exact h1 ▸ hpc
      · exact ih h2
    | false => simp [hpc] at h

lemma containsChar_iff : ∀ (s : List Char) (c : Char),
    containsChar s c = true ↔ c ∈ s := by
  intro s c
  induction s with
  | nil => simp [containsChar]
  | cons a t ih =>
    simp only [containsChar, Bool.or_eq_true, beq_iff_eq, ih, List.mem_cons]
    constructor
    · rintro (h | h)
      · exact Or.inl h.symm
      · exact Or.inr h
    · rintro (h | h)
      · exact Or.inl h.symm
      · exact Or.inr h

lemma containsChar_eq_false {s : List Char} {c : Char} :
    containsChar s c = false ↔ c ∉ s := by
  rw [← containsChar_iff]
  cases containsChar s c <;> simp

lemma startsWithL_iff : ∀ (p s : List Char), startsWithL s p = true ↔ p <+: s := by
  intro p
  induction p with
  | nil =>
    intro s
    cases s <;> simp [startsWithL, List.nil_prefix]
  | cons p0 ps ih =>
    intro s
    cases s with
    | nil =>
      simp only [startsWithL]
      constructor
      · intro h; exact absurd h (by simp)
      · intro h
        have := h.length_le
        simp at this
    | cons c cs =>
      simp only [startsWithL, Bool.and_eq_true, beq_iff_eq, ih cs,
        List.cons_prefix_cons]
      constructor
      · rintro ⟨h1, h2⟩
        exact ⟨h1.symm, h2⟩
      · rintro ⟨h1, h2⟩
        exact ⟨h1.symm, h2⟩

lemma containsSub_iff : ∀ (s pat : List Char),
    containsSub s pat = true ↔ pat <:+: s := by
  intro s pat
  induction s with
  | nil =>
    cases pat with
    | nil => simp [containsSub, startsWithL]
    | cons p ps => simp [containsSub, startsWithL, List.infix_nil]
  | cons c t ih =>
    simp [containsSub, startsWithL_iff, ih, List.infix_cons_iff]

lemma takeUntilSub_pre : ∀ (s pat : List Char), takeUntilSub s pat <+: s := by
  intro s pat
  induction s with
  | nil => simp [takeUntilSub]
  | cons c t ih =>
    rw [takeUntilSub]
    split
    · exact List.nil_prefix
    · exact List.cons_prefix_cons.mpr ⟨rfl, ih⟩

lemma not_containsSub_takeUntilSub : ∀ (s pat : List Char), pat ≠ [] →
    containsSub (takeUntilSub s pat) pat = false := by
  intro s pat hp
  induction s with
  | nil =>
    cases pat with
    | nil => exact absurd rfl hp
    | cons p ps => simp [takeUntilSub, containsSub, startsWithL]
  | cons c t ih =>
    rw [takeUntilSub]
    cases h : startsWithL (c :: t) pat with
    | true =>
      simp only [if_true]
      cases pat with
      | nil => exact absurd rfl hp
      | cons p ps => simp [containsSub, startsWithL]
    | false =>
      simp only [Bool.false_eq_true, if_false]
      rw [containsSub]
      cases hb : startsWithL (c :: takeUntilSub t pat) pat with
      | false => simp [hb, ih]
      | true =>
        exfalso
        have h1 : pat <+: c :: takeUntilSub t pat := (startsWithL_iff _ _).mp hb
        have h2 : c :: takeUntilSub t pat <+: c :: t :=
          List.cons_prefix_cons.mpr ⟨rfl, takeUntilSub_pre t pat⟩
        have h3 : pat <+: c :: t := h1.trans h2
        rw [(startsWithL_iff _ _).mpr h3] at h
        simp at h

lemma containsSub_false_of_inf {big small pat : List Char}
    (hb : containsSub big pat = false) (hs : small <:+: big) :
    containsSub small pat = false := by
  cases hc : containsSub small pat with
  | false => rfl
  | true =>
    exfalso
    have h1 : pat <:+: small := (containsSub_iff _ _).mp hc
    have h2 : pat <:+: big := h1.trans hs
    rw [(containsSub_iff _ _).mpr h2] at hb
    simp at hb

lemma rstrip_pre (y : List Char) : rstrip y <+: y := by
  obtain ⟨u, hu⟩ := List.dropWhile_suffix (l := y.reverse) (p := cIsSpace)
  refine ⟨u.reverse, ?_⟩
  have h2 : (u ++ y.reverse.dropWhile cIsSpace).reverse = y := by
    rw [hu, List.reverse_reverse]
  rw [List.reverse_append] at h2
  exact h2

lemma trimC_inf (s : List Char) : trimC s <:+: s :=
  ((rstrip_pre (lstrip s)).isInfix).trans
    ((List.dropWhile_suffix (p := cIsSpace)).isInfix)

lemma trimTake_inf (s : List Char) (n : Nat) : (trimC s).take n <:+: s :=
  (( List.take_prefix n (trimC s)).isInfix).trans (trimC_inf s)

lemma func_sig_clean (x : List Char) :
    containsChar ((trimC ((x.takeWhile (fun c => !(c == '\x7b'))).takeWhile
      (fun c => !(c == ';')))).take 8191) '\x7b' = false ∧
    containsChar ((trimC ((x.takeWhile (fun c => !(c == '\x7b'))).takeWhile
      (fun c => !(c == ';')))).take 8191) ';' = false := by
  constructor
  · rw [containsChar_eq_false]
    intro hm
    have h1 := (trimTake_inf _ 8191).subset hm
    have h2 := takeWhile_pred (takeWhile_mem h1)
    simp at h2
  · rw [containsChar_eq_false]
    intro hm
    have h1 := (trimTake_inf _ 8191).subset hm
    have h2 := takeWhile_pred h1
    simp at h2

lemma typedef_sig_clean (x : List Char) :
    containsChar ((trimC (x.takeWhile (fun c => !(c == ';')))).take 8191) ';'
      = false := by
  rw [containsChar_eq_false]
  intro hm
  have h1 := (trimTake_inf _ 8191).subset hm
  have h2 := takeWhile_pred h1
  simp at h2

lemma var_sig_clean (x : List Char) :
    containsSub ((trimC (varTrunc x)).take 8191) ((" = ").toList) = false := by
  have hT : containsSub (varTrunc x) ((" = ").toList) = false := by
    unfold varTrunc
    split
    · exact not_containsSub_takeUntilSub x _ (by decide)
    · split
      · rename_i hns _
        exact containsSub_false_of_inf (by simpa using hns)
          ( List.takeWhile_prefix _).isInfix
      · rename_i hns _
        simpa using hns
  exact containsSub_false_of_inf hT (trimTake_inf _ 8191)

/-! ## Scanner step lemmas -/

/-- The signature hygiene facts that hold of every recorded node: Function
signatures contain no opening brace and no semicolon, Typedef signatures
contain no semicolon, Variable signatures contain no " = ". -/
def SigOk (n : DocNode) : Prop :=
  (n.type = NODE_FUNCTION →
     containsChar n.signature '\x7b' = false ∧
     containsChar n.signature ';' = false) ∧
  (n.type = NODE_TYPEDEF → containsChar n.signature ';' = false) ∧
  (n.type = NODE_VARIABLE →
     containsSub n.signature ((" = ").toList) = false)

lemma contLoop_line_le (stop : List Char → Bool) :
    ∀ (inp : List (List Char)) (ln : Nat) (sig : List Char),
    ln ≤ (contLoop stop inp ln sig).2.1 := by
  intro inp
  induction inp with
  | nil => intro ln sig; simp [contLoop]
  | cons r rest ih =>
    intro ln sig
    rw [contLoop]
    split
    · simp
    · exact le_trans (Nat.le_succ ln) (ih (ln + 1) _)

lemma macroLoop_line_le : ∀ (inp : List (List Char)) (ln : Nat) (sig : List Char),
    ln ≤ (macroLoop inp ln sig).2.1 := by
  intro inp
  induction inp with
  | nil => intro ln sig; rw [macroLoop]; split <;> simp
  | cons r rest ih =>
    intro ln sig
    rw [macroLoop]
    split
    · exact le_trans (Nat.le_succ ln) (ih (ln + 1) _)
    · simp

lemma varLoop_line_le : ∀ (inp : List (List Char)) (ln : Nat)
    (sig buf : List Char), ln ≤ (varLoop inp ln sig buf).2.1 := by
  intro inp
  induction inp with
  | nil => intro ln sig buf; simp [varLoop]
  | cons r rest ih =>
    intro ln sig buf
    rw [varLoop]
    split
    · simp
    · exact le_trans (Nat.le_succ ln) (ih (ln + 1) _ _)

lemma blockLoop_line_le : ∀ (inp : List (List Char)) (ln : Nat) (buf : List Char),
    ln ≤ (blockLoop inp ln buf).2.1 := by
  intro inp
  induction inp with
  | nil => intro ln buf; simp [blockLoop]
  | cons r rest ih =>
    intro ln buf
    rw [blockLoop]
    split
    · simp
    · exact le_trans (Nat.le_succ ln) (ih (ln + 1) _)

lemma addNode_cases (t : ScanState) (n : DocNode) :
    (addNode t n).nodes = t.nodes ∨
    (t.nodes.length < MAX_NODES - 1 ∧ (addNode t n).nodes = t.nodes ++ [n]) := by
  unfold addNode
  split
  · left; rfl
  · right
    rename_i h
    exact ⟨Nat.lt_of_not_le h, rfl⟩

lemma addNode_line_num (t : ScanState) (n : DocNode) :
    (addNode t n).line_num = t.line_num := by
  unfold addNode; split <;> rfl

lemma addNode_at_cap (t : ScanState) (n : DocNode)
    (h : MAX_NODES - 1 ≤ t.nodes.length) : addNode t n = t := by
  unfold addNode
  rw [if_pos h]

lemma parse_function_core_sigok (s : ScanState) (a b c : Bool) :
    SigOk (parse_function_core s a b c).2 := by
  refine ⟨fun _ => ?_, fun h => NodeType.noConfusion h,
          fun h => NodeType.noConfusion h⟩
  exact func_sig_clean _

lemma parse_typedef_core_sigok (s : ScanState) :
    SigOk (parse_typedef_core s).2 := by
  refine ⟨fun h => NodeType.noConfusion h, fun _ => ?_,
          fun h => NodeType.noConfusion h⟩
  exact typedef_sig_clean _

lemma parse_variable_core_sigok (s : ScanState) (line : List Char) (st : Bool) :
    SigOk (parse_variable_core s line st).2 := by
  refine ⟨fun h => NodeType.noConfusion h, fun h => NodeType.noConfusion h,
          fun _ => ?_⟩
  exact var_sig_clean _

lemma parse_aggregate_core_sigok (s : ScanState) (ty : NodeType)
    (h1 : ty ≠ NODE_FUNCTION) (h2 : ty ≠ NODE_TYPEDEF)
    (h3 : ty ≠ NODE_VARIABLE) : SigOk (parse_aggregate_core s ty).2 :=
  ⟨fun h => absurd h h1, fun h => absurd h h2, fun h => absurd h h3⟩

lemma parse_macro_core_sigok (s : ScanState) (suf : List Char) :
    SigOk (parse_macro_core s suf).2 :=
  ⟨fun h => NodeType.noConfusion h, fun h => NodeType.noConfusion h,
   fun h => NodeType.noConfusion h⟩

lemma parse_include_core_sigok (s : ScanState) :
    SigOk (parse_include_core s).2 :=
  ⟨fun h => NodeType.noConfusion h, fun h => NodeType.noConfusion h,
   fun h => NodeType.noConfusion h⟩

/-- The shape of one classification step: the node list is unchanged, or
(below the cap) exactly one node is appended, carrying the current line
number and the signature hygiene facts; the line counter never decreases. -/
def StepOk (s s2 : ScanState) : Prop :=
  (s2.nodes = s.nodes ∨
    ∃ n, s.nodes.length < MAX_NODES - 1 ∧ s2.nodes = s.nodes ++ [n] ∧
      n.line = s.line_num ∧ SigOk n) ∧
  s.line_num ≤ s2.line_num

lemma addNode_step {s : ScanState} (t : ScanState) (n : DocNode)
    (ht : t.nodes = s.nodes) (hl : s.line_num ≤ t.line_num)
    (hn : n.line = s.line_num) (hs : SigOk n) : StepOk s (addNode t n) := by
  constructor
  · rcases addNode_cases t n with h | ⟨hlt, h⟩
    · left; rw [h, ht]
    · right
      refine ⟨n, ?_, ?_, hn, hs⟩
      · rw [← ht]; exact hlt
      · rw [h, ht]
  · rw [addNode_line_num]; exact hl

lemma parse_function_core_line_le (s : ScanState) (a b c : Bool) :
    s.line_num ≤ (parse_function_core s a b c).1.line_num := by
  simp only [parse_function_core]
  exact contLoop_line_le _ _ _ _

lemma parse_function_step (s : ScanState) (a b c : Bool) :
    StepOk s (parse_function s a b c) :=
  addNode_step _ _ rfl (parse_function_core_line_le s a b c) rfl
    (parse_function_core_sigok s a b c)

lemma parse_aggregate_step (s : ScanState) (ty : NodeType)
    (h1 : ty ≠ NODE_FUNCTION) (h2 : ty ≠ NODE_TYPEDEF)
    (h3 : ty ≠ NODE_VARIABLE) : StepOk s (parse_aggregate s ty) :=
  addNode_step _ _ rfl (Nat.le_refl _) rfl
    (parse_aggregate_core_sigok s ty h1 h2 h3)

lemma parse_typedef_core_line_le (s : ScanState) :
    s.line_num ≤ (parse_typedef_core s).1.line_num := by
  simp only [parse_typedef_core]
  exact contLoop_line_le _ _ _ _

lemma parse_typedef_step (s : ScanState) : StepOk s (parse_typedef s) :=
  addNode_step _ _ rfl (parse_typedef_core_line_le s) rfl
    (parse_typedef_core_sigok s)

lemma parse_macro_core_line_le (s : ScanState) (suf : List Char) :
    s.line_num ≤ (parse_macro_core s suf).1.line_num := by
  simp only [parse_macro_core]
  exact macroLoop_line_le _ _ _

lemma parse_macro_def_step (s : ScanState) : StepOk s (parse_macro_def s) := by
  unfold parse_macro_def
  cases h : findSub s.line (("#define").toList) with
  | none => exact ⟨Or.inl rfl, Nat.le_refl _⟩
  | some suf =>
    exact addNode_step _ _ rfl (parse_macro_core_line_le s suf) rfl
      (parse_macro_core_sigok s suf)

lemma parse_include_step (s : ScanState) : StepOk s (parse_include s) :=
  addNode_step _ _ rfl (Nat.le_refl _) rfl (parse_include_core_sigok s)

lemma parse_variable_core_line_le (s : ScanState) (line : List Char) (st : Bool) :
    s.line_num ≤ (parse_variable_core s line st).1.line_num := by
  simp only [parse_variable_core]
  split
  · exact varLoop_line_le _ _ _ _
  · exact Nat.le_refl _

lemma parse_variable_step (s : ScanState) (line : List Char) (st : Bool) :
    StepOk s (parse_variable s line st) :=
  addNode_step _ _ rfl (parse_variable_core_line_le s line st) rfl
    (parse_variable_core_sigok s line st)

lemma parse_block_comment_nodes (s : ScanState) :
    (parse_block_comment s).nodes = s.nodes := by
  unfold parse_block_comment
  split <;> rfl

lemma parse_block_comment_line_le (s : ScanState) :
    s.line_num ≤ (parse_block_comment s).line_num := by
  unfold parse_block_comment
  split
  · exact Nat.le_refl _
  · exact blockLoop_line_le _ _ _

lemma blockBranch_nodes (s : ScanState) : (blockBranch s).nodes = s.nodes := by
  unfold blockBranch
  split
  · exact parse_block_comment_nodes s
  · exact parse_block_comment_nodes s

lemma blockBranch_line_le (s : ScanState) :
    s.line_num ≤ (blockBranch s).line_num := by
  unfold blockBranch
  split
  · exact parse_block_comment_line_le s
  · exact parse_block_comment_line_le s

lemma dispatch_step (s : ScanState) : StepOk s (dispatch s) := by
  unfold dispatch
  split
  · exact ⟨Or.inl (blockBranch_nodes s), blockBranch_line_le s⟩
  split
  · exact ⟨Or.inl rfl, Nat.le_refl _⟩
  split
  · split
    · exact parse_include_step s
    split
    · exact parse_macro_def_step s
    · exact ⟨Or.inl rfl, Nat.le_refl _⟩
  split
  · exact parse_aggregate_step s NODE_STRUCT (by decide) (by decide) (by decide)
  split
  · exact parse_aggregate_step s NODE_UNION (by decide) (by decide) (by decide)
  split
  · exact parse_aggregate_step s NODE_ENUM (by decide) (by decide) (by decide)
  split
  · exact parse_typedef_step s
  split
  · exact parse_function_step s _ _ _
  split
  · exact parse_variable_step s _ _
  split
  · exact ⟨Or.inl rfl, Nat.le_refl _⟩
  · exact ⟨Or.inl rfl, Nat.le_refl _⟩

lemma nextLineFrom_spec : ∀ (inp : List (List Char)) (ln : Nat)
    (base s2 : ScanState), nextLineFrom base inp ln = some s2 →
    s2.nodes = base.nodes ∧ ln ≤ s2.line_num := by
  intro inp
  induction inp with
  | nil => intro ln base s2 h; simp [nextLineFrom] at h
  | cons l rest ih =>
    intro ln base s2 h
    rw [nextLineFrom] at h
    split at h
    · obtain ⟨h1, h2⟩ := ih (ln + 1) base s2 h
      exact ⟨h1, le_trans (Nat.le_succ ln) h2⟩
    · rw [Option.some.injEq] at h
      subst h
      exact ⟨rfl, Nat.le_succ ln⟩

lemma nextLine_spec {s s2 : ScanState} (h : nextLine s = some s2) :
    s2.nodes = s.nodes ∧ s.line_num ≤ s2.line_num :=
  nextLineFrom_spec s.input s.line_num s s2 h

lemma scanLoop_invariant (P : ScanState → Prop)
    (hnext : ∀ s s2, nextLine s = some s2 → P s → P s2)
    (hdisp : ∀ s, P s → P (dispatch s)) :
    ∀ (fuel : Nat) (s : ScanState), P s → P (scanLoop fuel s) := by
  intro fuel
  induction fuel with
  | zero => intro s h; rw [scanLoop]; exact h
  | succ n ih =>
    intro s h
    cases hnl : nextLine s with
    | none => rw [scanLoop, hnl]; exact h
    | some s2 => rw [scanLoop, hnl]; exact ih _ (hdisp _ (hnext _ _ hnl h))

lemma dispatch_pre (s : ScanState) : s.nodes <+: (dispatch s).nodes := by
  rcases (dispatch_step s).1 with h | ⟨n, _, h, _, _⟩
  · rw [h]
  · rw [h]; exact ⟨[n], rfl⟩

lemma scanLoop_pre : ∀ (fuel : Nat) (s : ScanState),
    s.nodes <+: (scanLoop fuel s).nodes := by
  intro fuel
  induction fuel with
  | zero => intro s; rw [scanLoop]
  | succ n ih =>
    intro s
    cases hnl : nextLine s with
    | none => rw [scanLoop, hnl]
    | some s2 =>
      rw [scanLoop, hnl]
      have h1 : s.nodes = s2.nodes := (nextLine_spec hnl).1.symm
      rw [h1]
      exact (dispatch_pre s2).trans (ih (dispatch s2))

/-- The invariant behind C1: the node count stays below the cap, the nodes
are pairwise ordered by source line, and every recorded line number is at
most the current line counter. -/
def ScanInv (s : ScanState) : Prop :=
  s.nodes.length ≤ MAX_NODES - 1 ∧
  List.Pairwise (fun a b => a.line ≤ b.line) s.nodes ∧
  ∀ n ∈ s.nodes, n.line ≤ s.line_num

lemma scanInv_next (s s2 : ScanState) (h : nextLine s = some s2)
    (hp : ScanInv s) : ScanInv s2 := by
  obtain ⟨h1, h2, h3⟩ := hp
  obtain ⟨hn, hl⟩ := nextLine_spec h
  refine ⟨?_, ?_, ?_⟩
  · rw [hn]; exact h1
  · rw [hn]; exact h2
  · intro n hm
    rw [hn] at hm
    exact le_trans (h3 n hm) hl

lemma scanInv_disp (s : ScanState) (hp : ScanInv s) : ScanInv (dispatch s) := by
  obtain ⟨h1, h2, h3⟩ := hp
  obtain ⟨hnodes, hline⟩ := dispatch_step s
  rcases hnodes with h | ⟨n, hlt, h, hnl, _⟩
  · refine ⟨?_, ?_, ?_⟩
    · rw [h]; exact h1
    · rw [h]; exact h2
    · intro m hm
      rw [h] at hm
      exact le_trans (h3 m hm) hline
  · refine ⟨?_, ?_, ?_⟩
    · rw [h, List.length_append, List.length_singleton]
      omega
    · rw [h, List.pairwise_append]
      refine ⟨h2, List.pairwise_singleton _ _, ?_⟩
      intro a ha b hb
      rw [List.mem_singleton] at hb
      subst hb
      rw [hnl]
      exact h3 a ha
    · intro m hm
      rw [h] at hm
      rcases List.mem_append.mp hm with h4 | h4
      · exact le_trans (h3 m h4) hline
      · rw [List.mem_singleton] at h4
        subst h4
        rw [hnl]
        exact hline

/-! ## Concrete inputs for the claims -/

set_option maxHeartbeats 2000000

/-- C2 input: a function header split before the parenthesis. -/
def c2SplitIn : List (List Char) :=
  [("static int").toList, ("  add(int a, int b) \x7b").toList]

/-- The same header on one physical line. -/
def c2OneIn : List (List Char) := [("static int add(int a, int b) \x7b").toList]

/-- The node the one-line header produces. -/
def c2Node : DocNode :=
  { name := ("add").toList
    type := NODE_FUNCTION
    line := 1
    docstring := []
    signature := ("static int add(int a, int b)").toList
    return_type := ("static int").toList
    is_static := true
    is_inline := false
    is_extern := false }

/-- C3 input: a one-line struct with a body. -/
def c3StructLine : List Char := ("struct Point \x7b int x; int y; \x7d;").toList

def c3StructIn : List (List Char) := [c3StructLine]

/-- C3 witness input: a function prototype. -/
def c3FuncIn : List (List Char) := [("int g(void);").toList]

/-- The node the prototype produces. -/
def c3gNode : DocNode :=
  { name := ("g").toList
    type := NODE_FUNCTION
    line := 1
    docstring := []
    signature := ("int g(void)").toList
    return_type := ("int").toList
    is_static := false
    is_inline := false
    is_extern := false }

/-- C4 counterexample state: a pending comment whose closing line equals
the current line number, fed to the struct extractor. -/
def c4State : ScanState :=
  { input := []
    line_num := 5
    line := ("struct Q \x7b\x7d;").toList
    pending_comment := ("doc").toList
    pending_comment_line := 5
    doc_docstring := []
    nodes := [] }

/-- C4 end-to-end input: comment directly above a struct. -/
def c4ScanIn : List (List Char) :=
  [("/* S doc */").toList, ("struct Q;").toList]

/-- C5 failing input, first line: a variable with an open initializer. -/
def c5Line1 : List Char := ("static int arr[] = \x7b").toList

/-- C5 failing input, continuation line. -/
def c5Cont : List Char := ("  1, 2, 3 \x7d;").toList

/-- C6 input: a macro with a backslash continuation. -/
def c6In : List (List Char) :=
  [("#define BIG(x) \\").toList, ("  ((x)*(x))").toList]

/-- The signature the macro produces: the backslash became a space, so the
two fragments appear joined by the original space plus that replacement
space. -/
def c6Sig : List Char := ("#define BIG(x)  ((x)*(x))").toList

/-- C7 input: a typedef of an anonymous struct with a body. -/
def c7In : List (List Char) :=
  [("typedef struct \x7b int x; int y; \x7d Point;").toList]

/-- C7 input without interior semicolons. -/
def c7bIn : List (List Char) := [("typedef struct Pt PT;").toList]

/-- C9 input: comment, one blank line, then a declaration. -/
def c9In : List (List Char) :=
  [("/* doc */").toList, ("   ").toList, ("int f(void);").toList]

/-- C9 witness state: pending comment closed at line 1, declaration at
line 3 (one blank line in between advanced the counter). -/
def c9WState : ScanState :=
  { input := []
    line_num := 3
    line := ("int f(void);").toList
    pending_comment := ("doc").toList
    pending_comment_line := 1
    doc_docstring := []
    nodes := [] }

/-- C10 input: a first block comment immediately followed by the first
entity. -/
def c10In : List (List Char) :=
  [("/** File doc */").toList, ("int f(void);").toList]

def c10FileDoc : List Char := ("File doc").toList

/-- The state after next_line read the comment line of c10In. -/
def c10St1 : ScanState :=
  { input := [("int f(void);").toList]
    line_num := 1
    line := ("/** File doc */").toList
    pending_comment := []
    pending_comment_line := 0
    doc_docstring := []
    nodes := [] }

/-- A throwaway node for the C1 witness. -/
def dummyNode : DocNode :=
  { name := []
    type := NODE_INCLUDE
    line := 0
    docstring := []
    signature := []
    return_type := []
    is_static := false
    is_inline := false
    is_extern := false }

/-- A state whose node count sits exactly at the ADD_NODE cap. -/
def capState : ScanState :=
  { input := []
    line_num := 0
    line := []
    pending_comment := []
    pending_comment_line := 0
    doc_docstring := []
    nodes := List.replicate 2047 dummyNode }

/-! ## Claim theorems -/

/-- C1: for every input file the scan produces at most MAX_NODES entities
(in fact at most MAX_NODES - 1, because ADD_NODE stops counting at
MAX_NODES - 1), the recorded entities are pairwise in non-decreasing
sourceLine order, and entities already collected are kept intact: every
intermediate node list is a prefix of the final one, and at the cap
ADD_NODE leaves the state unchanged. -/
theorem C1_entity_cap_and_order :
    (∀ lines : List (List Char),
       (scanFile lines).nodes.length ≤ MAX_NODES ∧
       List.Pairwise (fun a b => a.line ≤ b.line) (scanFile lines).nodes) ∧
    (∀ (fuel : Nat) (s : ScanState), s.nodes <+: (scanLoop fuel s).nodes) ∧
    (∀ (t : ScanState) (n : DocNode), MAX_NODES - 1 ≤ t.nodes.length →
       addNode t n = t) := by
  refine ⟨?_, scanLoop_pre, addNode_at_cap⟩
  intro lines
  have h := scanLoop_invariant ScanInv scanInv_next scanInv_disp
    (lines.length + 1) (initState lines)
    ⟨by simp [initState], by simp [initState], by simp [initState]⟩
  obtain ⟨h1, h2, _⟩ := h
  refine ⟨le_trans h1 ?_, h2⟩
  simp [MAX_NODES]

/-- C1 witness: the cap conjunct applied at a state holding
MAX_NODES - 1 nodes, and the bound applied to the empty file. -/
theorem C1_witness :
    (scanFile []).nodes.length ≤ MAX_NODES ∧ addNode capState dummyNode = capState :=
  ⟨(C1_entity_cap_and_order.1 []).1,
   C1_entity_cap_and_order.2.2 capState dummyNode
     (by simp [capState, MAX_NODES])⟩

/-- C2 counterexample: scanning `static int` followed by
`  add(int a, int b) {` records no entity at all — the classifier inspects
one physical line at a time and the first line has no parenthesis, so no
Function entity named add exists. -/
theorem C2_counterexample :
    ¬ ∃ n, n ∈ (scanFile c2SplitIn).nodes ∧ n.type = NODE_FUNCTION ∧
      n.name = ("add").toList := by
  intro ⟨n, hm, _, _⟩
  have h0 : (scanFile c2SplitIn).nodes = [] := by decide
  rw [h0] at hm
  simp at hm

/-- C2 amended: the split header produces no entities (classification
requires the opening parenthesis on the construct's first physical line);
written on one line the same header produces exactly one Function entity
named add with returnType "static int", the static qualifier set and a
signature that excludes the brace. -/
theorem C2_amended :
    (scanFile c2SplitIn).nodes = [] ∧
    (scanFile c2OneIn).nodes = [c2Node] := by
  exact ⟨by decide, by decide⟩

/-- C3 counterexample: `struct Point { int x; int y; };` yields a Struct
entity whose signature is the whole line, opening brace and body included —
parse_aggregate stores the trimmed line without stripping anything. -/
theorem C3_counterexample :
    (scanFile c3StructIn).nodes.map (fun n => (n.type, n.name, n.signature)) =
      [(NODE_STRUCT, ("Point").toList, c3StructLine)] ∧
    ¬ (∀ n ∈ (scanFile c3StructIn).nodes,
         containsChar n.signature '\x7b' = false) := by
  exact ⟨by decide, by decide⟩

/-- C3 amended: body stripping holds for Function (no brace, no
semicolon), Typedef (no semicolon) and Variable (no " = ") signatures, for
every input; but Struct/Union/Enum (and Macro, Include) signatures are the
entire trimmed declaration line, so the struct example keeps its body. -/
theorem C3_amended :
    (∀ (lines : List (List Char)) (n : DocNode),
       n ∈ (scanFile lines).nodes → SigOk n) ∧
    (scanFile c3StructIn).nodes.map (fun n => (n.type, n.name, n.signature)) =
      [(NODE_STRUCT, ("Point").toList, c3StructLine)] := by
  constructor
  · intro lines n hm
    have hstep : ∀ s, (∀ m ∈ s.nodes, SigOk m) →
        ∀ m ∈ (dispatch s).nodes, SigOk m := by
      intro s hp m hm2
      rcases (dispatch_step s).1 with h | ⟨k, _, h, _, hsig⟩
      · rw [h] at hm2
        exact hp m hm2
      · rw [h] at hm2
        rcases List.mem_append.mp hm2 with h2 | h2
        · exact hp m h2
        · rw [List.mem_singleton] at h2
          subst h2
          exact hsig
    have hnext : ∀ s s2, nextLine s = some s2 →
        (∀ m ∈ s.nodes, SigOk m) → ∀ m ∈ s2.nodes, SigOk m := by
      intro s s2 hn hp m hm2
      rw [(nextLine_spec hn).1] at hm2
      exact hp m hm2
    exact scanLoop_invariant (fun s => ∀ m ∈ s.nodes, SigOk m) hnext hstep
      (lines.length + 1) (initState lines) (by simp [initState]) n hm
  · decide

/-- C3 witness: the general part applied to a concrete Function node shows
its stored signature contains neither the brace nor the semicolon. -/
theorem C3_witness :
    containsChar c3gNode.signature '\x7b' = false ∧
    containsChar c3gNode.signature ';' = false :=
  (C3_amended.1 c3FuncIn c3gNode (by decide)).1 (by decide)

/-- C4 counterexample: at a state where the pending comment closed on the
entity's own starting line, the struct extractor does not attach it (and
does not clear it) — refuting the claim's "or equals the entity's starting
line" condition for the non-Function extractors, which test only
closing line = entity line - 1. -/
theorem C4_counterexample :
    c4State.pending_comment_line = c4State.line_num ∧
    c4State.pending_comment ≠ [] ∧
    (parse_aggregate c4State NODE_STRUCT).nodes.map (fun n => n.docstring) =
      [[]] ∧
    (parse_aggregate c4State NODE_STRUCT).pending_comment = ("doc").toList := by
  exact ⟨by decide, by decide, by decide, by decide⟩

/-- C4 amended: the Function extractor attaches the pending comment when it
closed on the previous line or on the entity's own line; the Struct/Union/
Enum, Typedef, Macro and Variable extractors attach only when it closed on
the previous line; in every case attaching clears the pending comment
text.  (The integer comparison closing = line - 1 is written
closing + 1 = line.)  An adjacent comment does attach end to end: scanning
a comment directly above `struct Q;` stores it as that entity's doc and
clears the pending comment. -/
theorem C4_amended :
    (∀ (s : ScanState) (a b c : Bool),
       (parse_function_core s a b c).2.docstring =
         (if s.pending_comment_line + 1 = s.line_num ∨
             s.pending_comment_line = s.line_num
          then s.pending_comment.take 8191 else []) ∧
       (parse_function_core s a b c).1.pending_comment =
         (if s.pending_comment_line + 1 = s.line_num ∨
             s.pending_comment_line = s.line_num
          then [] else s.pending_comment)) ∧
    (∀ (s : ScanState) (ty : NodeType),
       (parse_aggregate_core s ty).2.docstring =
         (if s.pending_comment_line + 1 = s.line_num
          then s.pending_comment.take 8191 else []) ∧
       (parse_aggregate_core s ty).1.pending_comment =
         (if s.pending_comment_line + 1 = s.line_num
          then [] else s.pending_comment)) ∧
    (∀ s : ScanState,
       (parse_typedef_core s).2.docstring =
         (if s.pending_comment_line + 1 = s.line_num
          then s.pending_comment.take 8191 else []) ∧
       (parse_typedef_core s).1.pending_comment =
         (if s.pending_comment_line + 1 = s.line_num
          then [] else s.pending_comment)) ∧
    (∀ (s : ScanState) (suf : List Char),
       (parse_macro_core s suf).2.docstring =
         (if s.pending_comment_line + 1 = s.line_num
          then s.pending_comment.take 8191 else []) ∧
       (parse_macro_core s suf).1.pending_comment =
         (if s.pending_comment_line + 1 = s.line_num
          then [] else s.pending_comment)) ∧
    (∀ (s : ScanState) (line : List Char) (st : Bool),
       (parse_variable_core s line st).2.docstring =
         (if s.pending_comment_line + 1 = s.line_num
          then s.pending_comment.take 8191 else []) ∧
       (parse_variable_core s line st).1.pending_comment =
         (if s.pending_comment_line + 1 = s.line_num
          then [] else s.pending_comment)) ∧
    ((scanFile c4ScanIn).nodes.map (fun n => n.docstring) =
       [("S doc").toList] ∧
     (scanFile c4ScanIn).pending_comment = []) := by
  refine ⟨fun s a b c => ⟨rfl, rfl⟩, fun s ty => ⟨rfl, rfl⟩,
          fun s => ⟨rfl, rfl⟩, fun s suf => ⟨rfl, rfl⟩,
          fun s line st => ⟨rfl, rfl⟩, by decide, by decide⟩

/-- C5: the variable continuation loop consumes the continuation lines and
terminates at the line holding the closing brace, but it appends only a
single space per line — never the line's text (docunation.c line 605
appends " " where the length check two lines above clearly anticipates
appending p->line).  The reconstruction of
`static int arr[] = {` / `  1, 2, 3 };` is `static int arr[] = { ` and does
not contain the continuation text, contradicting the claim.  The scan
still records one Variable entity with the stripped signature
`static int arr[]`; its name is empty, because the name walk runs on the
line buffer after the loop overwrote it with `  1, 2, 3 };` and finds no
identifier followed by a bracket, equals sign or semicolon there. -/
theorem C5_continuation_text_lost :
    varLoop [c5Cont] 1 c5Line1 c5Line1 =
      ([], 2, c5Line1 ++ [' '], c5Cont ++ ['\n']) ∧
    containsSub (varLoop [c5Cont] 1 c5Line1 c5Line1).2.2.1
      (("1, 2, 3").toList) = false ∧
    (scanFile [c5Line1, c5Cont]).nodes.map
      (fun n => (n.type, n.name, n.signature)) =
      [(NODE_VARIABLE, [], ("static int arr[]").toList)] := by
  exact ⟨by decide, by decide, by decide⟩

/-- C6: `#define BIG(x) \` followed by `  ((x)*(x))` produces exactly one
Macro entity named BIG; the trailing backslash was replaced by a space
before the trimmed next line was appended, so the signature is
`#define BIG(x)  ((x)*(x))` — it contains both fragments, joined by the
original space plus the space that replaced the backslash, and contains no
backslash. -/
theorem C6_macro_continuation :
    (scanFile c6In).nodes.map (fun n => (n.type, n.name, n.signature)) =
      [(NODE_MACRO_DEF, ("BIG").toList, c6Sig)] ∧
    containsSub c6Sig (("#define BIG(x)").toList) = true ∧
    containsSub c6Sig (("((x)*(x))").toList) = true ∧
    containsChar c6Sig '\\' = false := by
  exact ⟨by decide, by decide, by decide, by decide⟩

/-- C7 counterexample: `typedef struct { int x; int y; } Point;` is
classified as a Typedef and produces exactly one entity, but its name is
"x" — the last identifier before the FIRST semicolon of the line (inside
the struct body) — not "Point", the last identifier before the terminating
semicolon. -/
theorem C7_counterexample :
    (scanFile c7In).nodes.map (fun n => (n.type, n.name)) =
      [(NODE_TYPEDEF, ("x").toList)] ∧
    ("x").toList ≠ ("Point").toList := by
  exact ⟨by decide, by decide⟩

/-- C7 amended: a `typedef struct {...} Name;` line is classified as
Typedef (the aggregate branch requires the absence of "typedef") and
produces exactly one entity, with no separate Struct entity for the inner
anonymous struct; the entity's name is the last identifier before the
first semicolon of the line, which equals the typedef alias only when the
braces contain no semicolon (as in `typedef struct Pt PT;`). -/
theorem C7_amended :
    (scanFile c7In).nodes.map (fun n => (n.type, n.name)) =
      [(NODE_TYPEDEF, ("x").toList)] ∧
    (scanFile c7In).nodes.filter (fun n => n.type == NODE_STRUCT) = [] ∧
    (scanFile c7bIn).nodes.map (fun n => (n.type, n.name)) =
      [(NODE_TYPEDEF, ("PT").toList)] := by
  exact ⟨by decide, by decide, by decide⟩

/-- C8: scanning is deterministic over file content — two documents built
from the same file name and the same content agree on the file path, the
module name, the file-level docstring and every node (hence every name,
kind, line, signature, return type, qualifier and docstring); the
timestamp, supplied by the clock, is the only field that may differ. -/
theorem C8_determinism :
    ∀ (fn : List Char) (content : List (List Char)) (t1 t2 : List Char),
      (parse_document fn content t1).filepath =
        (parse_document fn content t2).filepath ∧
      (parse_document fn content t1).module_name =
        (parse_document fn content t2).module_name ∧
      (parse_document fn content t1).docstring =
        (parse_document fn content t2).docstring ∧
      (parse_document fn content t1).nodes =
        (parse_document fn content t2).nodes :=
  fun _ _ _ _ => ⟨rfl, rfl, rfl, rfl⟩

/-- C9: when the pending comment closed two or more lines before the
current line — which is what one intervening blank line produces, since
next_line counts blank lines even though they are skipped for
classification — no extractor attaches it; concretely, scanning a comment,
a blank line and `int f(void);` yields the function with an empty
docstring. -/
theorem C9_blank_line_blocks_attachment :
    (∀ (s : ScanState) (a b c : Bool),
       s.pending_comment_line + 2 ≤ s.line_num →
       (parse_function_core s a b c).2.docstring = []) ∧
    (∀ (s : ScanState) (ty : NodeType),
       s.pending_comment_line + 2 ≤ s.line_num →
       (parse_aggregate_core s ty).2.docstring = []) ∧
    (∀ s : ScanState, s.pending_comment_line + 2 ≤ s.line_num →
       (parse_typedef_core s).2.docstring = []) ∧
    (∀ (s : ScanState) (suf : List Char),
       s.pending_comment_line + 2 ≤ s.line_num →
       (parse_macro_core s suf).2.docstring = []) ∧
    (∀ (s : ScanState) (line : List Char) (st : Bool),
       s.pending_comment_line + 2 ≤ s.line_num →
       (parse_variable_core s line st).2.docstring = []) ∧
    (∀ (base : ScanState) (l : List Char) (rest : List (List Char)) (ln : Nat),
       trimC l = [] →
       nextLineFrom base (l :: rest) ln = nextLineFrom base rest (ln + 1)) ∧
    (scanFile c9In).nodes.map (fun n => (n.name, n.docstring)) =
      [(("f").toList, [])] := by
  refine ⟨?_, ?_, ?_, ?_, ?_, ?_, by decide⟩
  · intro s a b c h
    show (if s.pending_comment_line + 1 = s.line_num ∨
             s.pending_comment_line = s.line_num
          then s.pending_comment.take 8191 else []) = []
    rw [if_neg (by omega)]
  · intro s ty h
    show (if s.pending_comment_line + 1 = s.line_num
          then s.pending_comment.take 8191 else []) = []
    rw [if_neg (by omega)]
  · intro s h
    show (if s.pending_comment_line + 1 = s.line_num
          then s.pending_comment.take 8191 else []) = []
    rw [if_neg (by omega)]
  · intro s suf h
    show (if s.pending_comment_line + 1 = s.line_num
          then s.pending_comment.take 8191 else []) = []
    rw [if_neg (by omega)]
  · intro s line st h
    show (if s.pending_comment_line + 1 = s.line_num
          then s.pending_comment.take 8191 else []) = []
    rw [if_neg (by omega)]
  · intro base l rest ln h
    simp [nextLineFrom, h]

/-- C9 witness: the Function conjunct applied at a state whose pending
comment closed at line 1 while the declaration starts at line 3. -/
theorem C9_witness :
    (parse_function_core c9WState false false false).2.docstring = [] :=
  C9_blank_line_blocks_attachment.1 c9WState false false false (by decide)

/-- C10: the first block comment of a file (no entity recorded yet, no
file-level doc yet) is stored as the Document's docstring and
simultaneously remains the pending comment; when the first entity starts
on the next line the identical text also becomes that entity's doc. -/
theorem C10_file_doc_dual_use :
    nextLine (initState c10In) = some c10St1 ∧
    (dispatch c10St1).pending_comment = c10FileDoc ∧
    (dispatch c10St1).pending_comment_line = 1 ∧
    (dispatch c10St1).doc_docstring = c10FileDoc ∧
    (scanFile c10In).doc_docstring = c10FileDoc ∧
    (scanFile c10In).nodes.map (fun n => (n.name, n.docstring)) =
      [(("f").toList, c10FileDoc)] := by
  exact ⟨by decide, by decide, by decide, by decide, by decide, by decide⟩
